import Mathlib

/-
Verification development for the option-list ("app list") fetching sagas, the
validation mask constants, the backend validation severities and the queue
slice reducers of this repository
(source: src/utils/layout/generator/GeneratorDataSources.tsx).

Modelling conventions:
* A dotted data-model field path (for example persons.1.name, or the template
  form persons.{i}.name with an index placeholder) is embedded as a list of
  segments: a plain name, a resolved numeric row index, or an index-indicator
  placeholder.
* A field mapping (JS object from field path to destination option key) is an
  association list in insertion order, mirroring Object.keys enumeration.
* Saga runs are embedded as pure functions from their inputs (store snapshots
  they select, and the outcome of the one asynchronous remote call) to the
  ordered list of redux actions they dispatch and the child tasks they fork.
  A fork runs its child synchronously up to the first network suspension
  (the call to get); network completions are delivered only after the
  current synchronous pass has finished.
-/

inductive Seg
  | name (s : String)
  | idx (n : Nat)
  | indicator
deriving DecidableEq, Repr

abbrev FieldPath : Type := List Seg

abbrev DataMapping : Type := List (FieldPath × String)

def isIndicatorSeg : Seg → Bool
  | Seg.indicator => true
  | _ => false

/-- Modelled from the spec: the Key Codec function getKeyWithoutIndex from
src/utils/databindings (not under src/) strips all resolved row indices from
a dotted field path. -/
def getKeyWithoutIndex (p : FieldPath) : FieldPath :=
  p.filter (fun s => match s with | Seg.idx _ => false | _ => true)

/-- Modelled from the spec: the Key Codec function getKeyWithoutIndexIndicators
from src/utils/databindings (not under src/) strips index-placeholder markers
only. -/
def getKeyWithoutIndexIndicators (p : FieldPath) : FieldPath :=
  p.filter (fun s => !(isIndicatorSeg s))

/-- Modelled from the spec: the Key Codec function getKeyIndex from
src/utils/databindings (not under src/) extracts the resolved row indices of a
field path in left-to-right order. -/
def getKeyIndex (p : FieldPath) : List Nat :=
  p.filterMap (fun s => match s with | Seg.idx n => some n | _ => none)

/-- Modelled from the spec: the Key Codec function
replaceIndexIndicatorsWithIndexes from src/utils/databindings (not under
src/) substitutes index placeholders with the given indices in encounter
order (placeholders beyond the supplied indices are left in place; the
MalformedPathError of the spec for a count mismatch is outside the modelled
well-formed inputs). -/
def replaceIndexIndicatorsWithIndexes : FieldPath → List Nat → FieldPath
  | [], _ => []
  | Seg.indicator :: rest, k :: ks => Seg.idx k :: replaceIndexIndicatorsWithIndexes rest ks
  | Seg.indicator :: rest, [] => Seg.indicator :: replaceIndexIndicatorsWithIndexes rest []
  | s :: rest, ks => s :: replaceIndexIndicatorsWithIndexes rest ks

/-- Lookup Key identifying one fetchable option list. Modelled from the spec:
two keys are equal iff their id and mapping match (getAppListLookupKey from
src/utils/applist, not under src/, serializes exactly these two components). -/
structure LookupKey where
  id : Option String
  mapping : Option DataMapping
deriving DecidableEq, Repr

/-- Modelled from the spec: getAppListLookupKey from src/utils/applist (not
under src/) builds the opaque Lookup Key from the list id and the mapping. -/
def getAppListLookupKey (id : Option String) (mapping : Option DataMapping) : LookupKey :=
  ⟨id, mapping⟩

/-- IAppListsMetaData of the source: the id, mapping and secure flag stored
with a fetch. The elements of the resolver result keys have the same shape. -/
structure IAppListsMetaData where
  id : Option String
  mapping : Option DataMapping
  secure : Option Bool
deriving DecidableEq, Repr

/-- Arguments of fetchSpecificAppListSaga (IFetchSpecificAppListSaga of the
source). -/
structure IFetchSpecificAppListSaga where
  appListId : Option String
  dataMapping : Option DataMapping
  secure : Option Bool
deriving DecidableEq, Repr

/- ===== Validation mask constants (ValidationMask enum of the source) ===== -/

namespace ValidationMask

def Schema : Nat := 0b0000000000000001

def Component : Nat := 0b0000000000000010

def Expression : Nat := 0b0000000000000100

def CustomBackend : Nat := 0b0000000000001000

def Required : Nat := 0b0100000000000000

def AllExceptRequired : Nat := 0b0011111111111111

def All : Nat := 0b0111111111111111

def Backend : Nat := 0b1000000000000000

def AllIncludingBackend : Nat := 0b1111111111111111

end ValidationMask

/- ===== Backend validation severities (BackendValidationSeverity enum) ===== -/

inductive BackendValidationSeverity
  | Error
  | Warning
  | Informational
  | Success
deriving DecidableEq, Repr

def BackendValidationSeverity.toNat : BackendValidationSeverity → Nat
  | BackendValidationSeverity.Error => 1
  | BackendValidationSeverity.Warning => 2
  | BackendValidationSeverity.Informational => 3
  | BackendValidationSeverity.Success => 5

/- ===== Queue slice (queueSlice of the source) ===== -/

/-- One task entry of IQueueState: isDone starts as null, error starts as
null. -/
structure TaskState where
  isDone : Option Bool
  error : Option String
deriving DecidableEq, Repr

structure IQueueState where
  dataTask : TaskState
  appTask : TaskState
  userTask : TaskState
  infoTask : TaskState
  stateless : TaskState
deriving DecidableEq, Repr

def commonState : TaskState := ⟨none, none⟩

def initialState : IQueueState :=
  ⟨commonState, commonState, commonState, commonState, commonState⟩

/-- Reducer of the appTaskQueueError action: state.appTask.error = error. -/
def appTaskQueueError (s : IQueueState) (e : String) : IQueueState :=
  { s with appTask := { s.appTask with error := some e } }

/-- Reducer of the userTaskQueueError action: state.userTask.error = error. -/
def userTaskQueueError (s : IQueueState) (e : String) : IQueueState :=
  { s with userTask := { s.userTask with error := some e } }

/-- Reducer of the dataTaskQueueError action: state.dataTask.error = error. -/
def dataTaskQueueError (s : IQueueState) (e : String) : IQueueState :=
  { s with dataTask := { s.dataTask with error := some e } }

/-- Reducer of the infoTaskQueueError action: state.infoTask.error = error. -/
def infoTaskQueueError (s : IQueueState) (e : String) : IQueueState :=
  { s with infoTask := { s.infoTask with error := some e } }

/-- Reducer of the statelessQueueError action: state.stateless.error = error. -/
def statelessQueueError (s : IQueueState) (e : String) : IQueueState :=
  { s with stateless := { s.stateless with error := some e } }

/- ===== App list saga model ===== -/

/-- Redux actions dispatched by the app list sagas (appListsActions of the
source slice, as observed in dispatch order). -/
inductive SagaAction
  | fetching (key : LookupKey) (metaData : IAppListsMetaData)
  | fetchFulfilled (key : LookupKey) (appLists : List String)
  | fetchRejected (key : LookupKey) (error : String)
  | setAppListsWithIndexIndicators (appListsWithIndexIndicators : List IAppListsMetaData)
deriving DecidableEq, Repr

def isTerminalAction : SagaAction → Bool
  | SagaAction.fetchFulfilled _ _ => true
  | SagaAction.fetchRejected _ _ => true
  | _ => false

def isSetAction : SagaAction → Bool
  | SagaAction.setAppListsWithIndexIndicators _ => true
  | _ => false

def actionKey : SagaAction → Option LookupKey
  | SagaAction.fetching k _ => some k
  | SagaAction.fetchFulfilled k _ => some k
  | SagaAction.fetchRejected k _ => some k
  | SagaAction.setAppListsWithIndexIndicators _ => none

/-- Modelled from the spec: getAppListsUrl from src/utils/appUrlHelper (not
under src/) parameterizes the remote GET by list id, current form data,
language, field mapping, security flag and instance id; embedded as the
record of those parameters. -/
structure AppListsUrl where
  appListId : Option String
  formData : List (FieldPath × String)
  language : String
  dataMapping : Option DataMapping
  secure : Option Bool
  instanceId : Option String

def getAppListsUrl (appListId : Option String) (formData : List (FieldPath × String))
    (language : String) (dataMapping : Option DataMapping) (secure : Option Bool)
    (instanceId : Option String) : AppListsUrl :=
  ⟨appListId, formData, language, dataMapping, secure, instanceId⟩

/-- Response shape of the remote endpoint (IAppList of the source): the
listItems array. -/
structure IAppList where
  listItems : List String

/-- The store snapshots fetchSpecificAppListSaga selects, together with the
remote get call; a result Except.error e models the call (or any later step
of the try block) throwing e. -/
structure FetchEnv where
  instanceId : Option String
  formData : List (FieldPath × String)
  language : String
  remote : AppListsUrl → Except String IAppList

/-- Transcription of fetchSpecificAppListSaga: computes the lookup key once at
entry, dispatches fetching, performs the remote get and dispatches exactly one
of fetchFulfilled or fetchRejected; a thrown error is caught and the saga
terminates normally (the function is total), so a failed fetch never aborts
sibling tasks. -/
def fetchSpecificAppListSaga (a : IFetchSpecificAppListSaga) (env : FetchEnv) :
    List SagaAction :=
  let key := getAppListLookupKey a.appListId a.dataMapping
  let metaData : IAppListsMetaData := ⟨a.appListId, a.dataMapping, a.secure⟩
  let url := getAppListsUrl a.appListId env.formData env.language a.dataMapping
    a.secure env.instanceId
  match env.remote url with
  | Except.ok appLists =>
      [SagaAction.fetching key metaData, SagaAction.fetchFulfilled key appLists.listItems]
  | Except.error error =>
      [SagaAction.fetching key metaData, SagaAction.fetchRejected key error]

/-- The synchronous part a forked fetchSpecificAppListSaga runs before
suspending on its network call: the fetching dispatch. -/
def forkSyncActions (a : IFetchSpecificAppListSaga) : List SagaAction :=
  [SagaAction.fetching (getAppListLookupKey a.appListId a.dataMapping)
    ⟨a.appListId, a.dataMapping, a.secure⟩]

/-- ILayoutCompList of the source: the three fields the orchestrator reads off
a layout component (absent on other component kinds, hence optional). -/
structure ILayoutCompList where
  appListId : Option String
  mapping : Option DataMapping
  secure : Option Bool
deriving DecidableEq, Repr

abbrev ILayouts : Type := List (String × List ILayoutCompList)

/-- Repeating group state: binding path of a group together with its row
count. -/
abbrev IRepeatingGroups : Type := List (FieldPath × Nat)

/-- Result shape of getAppListLookupKeys. -/
structure AppListLookupKeysResult where
  keys : List IAppListsMetaData
  keyWithIndexIndicator : Option IAppListsMetaData
deriving DecidableEq, Repr

def baseBinding (p : FieldPath) : FieldPath :=
  p.takeWhile (fun s => !(isIndicatorSeg s))

def lookupRowCount (rg : IRepeatingGroups) (p : FieldPath) : Option Nat :=
  (rg.find? (fun g => decide (g.1 = p))).map Prod.snd

/-- Modelled from the spec: the Option-List Lookup Resolver
getAppListLookupKeys from src/utils/applist (not under src/). If some mapped
field carries an index placeholder, it produces one concrete key per existing
row of the repeating group the field lies in (placeholders replaced by the
row index) plus the template key retaining the placeholders; otherwise the
single concrete key. Nested-group cross products are outside the modelled
single-level scope. -/
def getAppListLookupKeys (id : Option String) (mapping : Option DataMapping)
    (secure : Option Bool) (repeatingGroups : IRepeatingGroups) :
    AppListLookupKeysResult :=
  match mapping with
  | some m =>
      if m.any (fun kv => kv.1.any isIndicatorSeg) then
        let templFields := (m.map Prod.fst).filter (fun p => p.any isIndicatorSeg)
        let keys := templFields.foldr (fun tk acc =>
          match lookupRowCount repeatingGroups (baseBinding tk) with
          | some n =>
              ((List.range n).map (fun i =>
                IAppListsMetaData.mk id
                  (some (m.map (fun kv =>
                    (replaceIndexIndicatorsWithIndexes kv.1 [i], kv.2))))
                  secure)) ++ acc
          | none => acc) []
        ⟨keys, some ⟨id, some m, secure⟩⟩
      else ⟨[⟨id, some m, secure⟩], none⟩
  | none => ⟨[⟨id, none, secure⟩], none⟩

/-- JS truthiness of an optional string: undefined and the empty string are
falsy. -/
def jsTruthyStr : Option String → Bool
  | none => false
  | some s => !(s == "")

/-- The evolving state of one fetchAppListsSaga pass: the dedup list
fetchedAppLists, the collected template keys, the forked child tasks in fork
order, and the synchronous action trace of the pass. -/
structure OrchestratorState where
  fetchedAppLists : List LookupKey
  appListsWithIndexIndicators : List IAppListsMetaData
  forks : List IFetchSpecificAppListSaga
  trace : List SagaAction

def initialOrchestratorState : OrchestratorState := ⟨[], [], [], []⟩

/-- Inner loop body of fetchAppListsSaga over one resolved key: fork only when
the element appListId is truthy and the lookup key was not yet fetched in this
pass; record the key after forking. -/
def fetchAppListsSagaKeyStep (appListId : Option String) (st : OrchestratorState)
    (k : IAppListsMetaData) : OrchestratorState :=
  let lookupKey := getAppListLookupKey k.id k.mapping
  if jsTruthyStr appListId = true ∧ ¬ lookupKey ∈ st.fetchedAppLists then
    let forkArgs : IFetchSpecificAppListSaga := ⟨appListId, k.mapping, k.secure⟩
    { st with
      fetchedAppLists := st.fetchedAppLists ++ [lookupKey],
      forks := st.forks ++ [forkArgs],
      trace := st.trace ++ forkSyncActions forkArgs }
  else st

/-- Per-element body of fetchAppListsSaga: resolve the lookup keys, record the
template key when present, then run the key loop. -/
def fetchAppListsSagaElementStep (repeatingGroups : IRepeatingGroups)
    (st : OrchestratorState) (e : ILayoutCompList) : OrchestratorState :=
  let r := getAppListLookupKeys e.appListId e.mapping e.secure repeatingGroups
  let st1 :=
    match r.keyWithIndexIndicator with
    | some k =>
        { st with appListsWithIndexIndicators := st.appListsWithIndexIndicators ++ [k] }
    | none => st
  r.keys.foldl (fetchAppListsSagaKeyStep e.appListId) st1

/-- The nested loops of fetchAppListsSaga over pages, elements and resolved
keys, starting from the empty pass state. -/
def orchestratorCore (layouts : ILayouts) (repeatingGroups : IRepeatingGroups) :
    OrchestratorState :=
  layouts.foldl
    (fun s pg => pg.2.foldl (fetchAppListsSagaElementStep repeatingGroups) s)
    initialOrchestratorState

/-- Transcription of fetchAppListsSaga: the nested loops over pages, elements
and resolved keys, followed by the single put of
setAppListsWithIndexIndicators. -/
def fetchAppListsSaga (layouts : ILayouts) (repeatingGroups : IRepeatingGroups) :
    OrchestratorState :=
  let st := orchestratorCore layouts repeatingGroups
  { st with trace := st.trace ++
      [SagaAction.setAppListsWithIndexIndicators st.appListsWithIndexIndicators] }

/-- Guarded fork occurrences of one element in traversal order, stated from
the spec: for a truthy appListId, one occurrence per resolved key, carrying
the dedup Lookup Key (computed from the resolved key id and mapping) and the
fork arguments the saga would use. -/
def elementOccurrences (repeatingGroups : IRepeatingGroups) (e : ILayoutCompList) :
    List (LookupKey × IFetchSpecificAppListSaga) :=
  if jsTruthyStr e.appListId = true then
    (getAppListLookupKeys e.appListId e.mapping e.secure repeatingGroups).keys.map
      (fun k => (getAppListLookupKey k.id k.mapping, ⟨e.appListId, k.mapping, k.secure⟩))
  else []

def guardedOccurrences (layouts : ILayouts) (repeatingGroups : IRepeatingGroups) :
    List (LookupKey × IFetchSpecificAppListSaga) :=
  layouts.flatMap (fun pg => pg.2.flatMap (elementOccurrences repeatingGroups))

/-- Stated from the spec: keep only the first occurrence of each distinct
Lookup Key (seen collects the keys already kept). -/
def firstPerKeyAux : List LookupKey → List (LookupKey × IFetchSpecificAppListSaga) →
    List (LookupKey × IFetchSpecificAppListSaga)
  | _, [] => []
  | seen, o :: t =>
      if o.1 ∈ seen then firstPerKeyAux seen t
      else o :: firstPerKeyAux (seen ++ [o.1]) t

def firstPerKey (l : List (LookupKey × IFetchSpecificAppListSaga)) :
    List (LookupKey × IFetchSpecificAppListSaga) :=
  firstPerKeyAux [] l

/-- One dedup-guarded fork step over a precomputed occurrence. -/
def dedupStep (st : OrchestratorState) (o : LookupKey × IFetchSpecificAppListSaga) :
    OrchestratorState :=
  if o.1 ∈ st.fetchedAppLists then st
  else { st with
    fetchedAppLists := st.fetchedAppLists ++ [o.1],
    forks := st.forks ++ [o.2],
    trace := st.trace ++ forkSyncActions o.2 }

/-- Template keys recorded by one element. -/
def indicatorListOf (repeatingGroups : IRepeatingGroups) (e : ILayoutCompList) :
    List IAppListsMetaData :=
  (getAppListLookupKeys e.appListId e.mapping e.secure repeatingGroups).keyWithIndexIndicator.toList

def allIndicators (layouts : ILayouts) (repeatingGroups : IRepeatingGroups) :
    List IAppListsMetaData :=
  layouts.flatMap (fun pg => pg.2.flatMap (indicatorListOf repeatingGroups))

/-- Full observable action trace of one orchestration: the synchronous pass
trace followed by however the network completions of the forked fetches are
later delivered. -/
def orchestrationTrace (layouts : ILayouts) (repeatingGroups : IRepeatingGroups)
    (completions : List SagaAction) : List SagaAction :=
  (fetchAppListsSaga layouts repeatingGroups).trace ++ completions

/-- One stored entry of the appLists store (value of IAppLists at one key):
the fields the refetch reactor reads. -/
structure StoredAppList where
  id : Option String
  mapping : Option DataMapping
  secure : Option Bool
deriving DecidableEq, Repr

/-- JS object assignment obj[k] = v on an insertion-ordered association list:
an existing key keeps its position and gets the new value, a new key is
appended. -/
def objAssign (m : DataMapping) (k : FieldPath) (v : String) : DataMapping :=
  if k ∈ m.map Prod.fst then m.map (fun kv => if kv.1 = k then (k, v) else kv)
  else m ++ [(k, v)]

/-- The newDataMapping the reactor builds for a matching template: JS object
assignment of the mapping values under the concretized keys, in key order. -/
def newDataMappingFor (field : FieldPath) (m : DataMapping) : DataMapping :=
  m.foldl (fun nm kv =>
    objAssign nm (replaceIndexIndicatorsWithIndexes kv.1 (getKeyIndex field)) kv.2) []

/-- First loop body of checkIfAppListsShouldRefetchSaga over one stored entry:
when the entry mapping keys include the changed field, set the
foundInExistingAppLists flag and fork the entry. -/
def refetchExactStep (field : FieldPath)
    (acc : Bool × List IFetchSpecificAppListSaga) (entry : StoredAppList) :
    Bool × List IFetchSpecificAppListSaga :=
  match entry.mapping with
  | some dataMapping =>
      if field ∈ dataMapping.map Prod.fst then
        (true, acc.2 ++ [⟨entry.id, some dataMapping, entry.secure⟩])
      else acc
  | none => acc

/-- Second loop body of checkIfAppListsShouldRefetchSaga over one stored
template key: when some mapping key stripped of index indicators equals the
index-stripped changed field, fork with the template id and secure flag and
the concretized mapping. -/
def refetchTemplateStep (field : FieldPath)
    (acc : List IFetchSpecificAppListSaga) (t : IAppListsMetaData) :
    List IFetchSpecificAppListSaga :=
  match t.mapping with
  | some mapping =>
      if getKeyWithoutIndex field ∈ (mapping.map Prod.fst).map getKeyWithoutIndexIndicators then
        acc ++ [⟨t.id, some (newDataMappingFor field mapping), t.secure⟩]
      else acc
  | none => acc

/-- Transcription of checkIfAppListsShouldRefetchSaga: a first loop over the
stored app lists forking every entry whose mapping keys include the changed
field exactly; only when none matched, a loop over the stored template keys
forking a concretized fetch for every matching template. Returns the forked
fetch arguments in fork order. -/
def checkIfAppListsShouldRefetchSaga (field : FieldPath)
    (appLists : List StoredAppList)
    (appListsWithIndexIndicators : List IAppListsMetaData) :
    List IFetchSpecificAppListSaga :=
  let firstLoop := appLists.foldl (refetchExactStep field) (false, [])
  if firstLoop.1 then firstLoop.2
  else firstLoop.2 ++ appListsWithIndexIndicators.foldl (refetchTemplateStep field) []

/-- Whether a stored entry mapping contains the changed field among its keys
(the exact-match test of the first reactor loop). -/
def hasExactMatch (field : FieldPath) (e : StoredAppList) : Bool :=
  match e.mapping with
  | some m => decide (field ∈ m.map Prod.fst)
  | none => false

def exactForkOf (e : StoredAppList) : IFetchSpecificAppListSaga :=
  ⟨e.id, e.mapping, e.secure⟩

/-- Whether a template entry matches the changed field: some mapping key,
stripped of index indicators, equals the index-stripped changed field. -/
def templateMatch (field : FieldPath) (t : IAppListsMetaData) : Bool :=
  match t.mapping with
  | some m =>
      decide (getKeyWithoutIndex field ∈ (m.map Prod.fst).map getKeyWithoutIndexIndicators)
  | none => false

def templateForkOf (field : FieldPath) (t : IAppListsMetaData) :
    IFetchSpecificAppListSaga :=
  match t.mapping with
  | some m => ⟨t.id, some (newDataMappingFor field m), t.secure⟩
  | none => ⟨t.id, none, t.secure⟩

/- ===== Claims C3, C7, C8, C10 ===== -/

/-- C3 counterexample: the claim states AllExceptRequired equals the bitwise
OR of Schema, Component, Expression and CustomBackend, but in the code
AllExceptRequired is 0b0011111111111111 = 16383 while the OR of those four
atomic flags is 15, so AllExceptRequired contains bits (bits 4 through 13)
that belong to no atomic category. -/
theorem validationMask_allExceptRequired_not_or_of_atomics :
    ¬ (ValidationMask.AllExceptRequired =
        ValidationMask.Schema ||| ValidationMask.Component |||
        ValidationMask.Expression ||| ValidationMask.CustomBackend) := by
  decide

/-- C3 (amended): AllExceptRequired is 2 ^ 14 - 1, a strict superset of the
OR of the four non-Required frontend atomic flags (it additionally contains
reserved bits 4 through 13 that belong to no atomic category), and it is
disjoint from Required and Backend; the other two combinations hold as
claimed: All = AllExceptRequired OR Required and
AllIncludingBackend = All OR Backend. -/
theorem validationMask_combinations_amended :
    ValidationMask.AllExceptRequired = 2 ^ 14 - 1
    ∧ (ValidationMask.Schema ||| ValidationMask.Component |||
        ValidationMask.Expression ||| ValidationMask.CustomBackend) &&&
        ValidationMask.AllExceptRequired =
        (ValidationMask.Schema ||| ValidationMask.Component |||
          ValidationMask.Expression ||| ValidationMask.CustomBackend)
    ∧ ValidationMask.AllExceptRequired ≠
        (ValidationMask.Schema ||| ValidationMask.Component |||
          ValidationMask.Expression ||| ValidationMask.CustomBackend)
    ∧ ValidationMask.AllExceptRequired &&& ValidationMask.Required = 0
    ∧ ValidationMask.AllExceptRequired &&& ValidationMask.Backend = 0
    ∧ ValidationMask.All = ValidationMask.AllExceptRequired ||| ValidationMask.Required
    ∧ ValidationMask.AllIncludingBackend = ValidationMask.All ||| ValidationMask.Backend := by
  decide

/-- C7: every atomic validation category flag has exactly one bit set (each is
the stated power of two) and the atomic flags are pairwise disjoint under
bitwise AND. -/
theorem validationMask_atomic_flags_disjoint_powers_of_two :
    (ValidationMask.Schema = 2 ^ 0
      ∧ ValidationMask.Component = 2 ^ 1
      ∧ ValidationMask.Expression = 2 ^ 2
      ∧ ValidationMask.CustomBackend = 2 ^ 3
      ∧ ValidationMask.Required = 2 ^ 14
      ∧ ValidationMask.Backend = 2 ^ 15)
    ∧ ValidationMask.Schema &&& ValidationMask.Component = 0
    ∧ ValidationMask.Schema &&& ValidationMask.Expression = 0
    ∧ ValidationMask.Schema &&& ValidationMask.CustomBackend = 0
    ∧ ValidationMask.Schema &&& ValidationMask.Required = 0
    ∧ ValidationMask.Schema &&& ValidationMask.Backend = 0
    ∧ ValidationMask.Component &&& ValidationMask.Expression = 0
    ∧ ValidationMask.Component &&& ValidationMask.CustomBackend = 0
    ∧ ValidationMask.Component &&& ValidationMask.Required = 0
    ∧ ValidationMask.Component &&& ValidationMask.Backend = 0
    ∧ ValidationMask.Expression &&& ValidationMask.CustomBackend = 0
    ∧ ValidationMask.Expression &&& ValidationMask.Required = 0
    ∧ ValidationMask.Expression &&& ValidationMask.Backend = 0
    ∧ ValidationMask.CustomBackend &&& ValidationMask.Required = 0
    ∧ ValidationMask.CustomBackend &&& ValidationMask.Backend = 0
    ∧ ValidationMask.Required &&& ValidationMask.Backend = 0 := by
  decide

/-- C8: the BackendValidationSeverity enum maps Error to 1, Warning to 2,
Informational to 3 and Success to 5, and every severity it defines takes one
of exactly these four values. -/
theorem backendValidationSeverity_values :
    BackendValidationSeverity.toNat BackendValidationSeverity.Error = 1
    ∧ BackendValidationSeverity.toNat BackendValidationSeverity.Warning = 2
    ∧ BackendValidationSeverity.toNat BackendValidationSeverity.Informational = 3
    ∧ BackendValidationSeverity.toNat BackendValidationSeverity.Success = 5
    ∧ ∀ s : BackendValidationSeverity,
        BackendValidationSeverity.toNat s = 1 ∨ BackendValidationSeverity.toNat s = 2
        ∨ BackendValidationSeverity.toNat s = 3 ∨ BackendValidationSeverity.toNat s = 5 := by
  refine ⟨rfl, rfl, rfl, rfl, ?_⟩
  intro s
  cases s <;> simp [BackendValidationSeverity.toNat]

/-- C10: each queue error reducer sets only the error field of the task named
by the action; the isDone flag of that task and the complete state of the
other four tasks are unchanged. -/
theorem queueSlice_error_reducers_frame :
    ∀ (s : IQueueState) (e : String),
      ((appTaskQueueError s e).appTask.error = some e
        ∧ (appTaskQueueError s e).appTask.isDone = s.appTask.isDone
        ∧ (appTaskQueueError s e).dataTask = s.dataTask
        ∧ (appTaskQueueError s e).userTask = s.userTask
        ∧ (appTaskQueueError s e).infoTask = s.infoTask
        ∧ (appTaskQueueError s e).stateless = s.stateless)
      ∧ ((userTaskQueueError s e).userTask.error = some e
        ∧ (userTaskQueueError s e).userTask.isDone = s.userTask.isDone
        ∧ (userTaskQueueError s e).dataTask = s.dataTask
        ∧ (userTaskQueueError s e).appTask = s.appTask
        ∧ (userTaskQueueError s e).infoTask = s.infoTask
        ∧ (userTaskQueueError s e).stateless = s.stateless)
      ∧ ((dataTaskQueueError s e).dataTask.error = some e
        ∧ (dataTaskQueueError s e).dataTask.isDone = s.dataTask.isDone
        ∧ (dataTaskQueueError s e).appTask = s.appTask
        ∧ (dataTaskQueueError s e).userTask = s.userTask
        ∧ (dataTaskQueueError s e).infoTask = s.infoTask
        ∧ (dataTaskQueueError s e).stateless = s.stateless)
      ∧ ((infoTaskQueueError s e).infoTask.error = some e
        ∧ (infoTaskQueueError s e).infoTask.isDone = s.infoTask.isDone
        ∧ (infoTaskQueueError s e).dataTask = s.dataTask
        ∧ (infoTaskQueueError s e).userTask = s.userTask
        ∧ (infoTaskQueueError s e).appTask = s.appTask
        ∧ (infoTaskQueueError s e).stateless = s.stateless)
      ∧ ((statelessQueueError s e).stateless.error = some e
        ∧ (statelessQueueError s e).stateless.isDone = s.stateless.isDone
        ∧ (statelessQueueError s e).dataTask = s.dataTask
        ∧ (statelessQueueError s e).userTask = s.userTask
        ∧ (statelessQueueError s e).infoTask = s.infoTask
        ∧ (statelessQueueError s e).appTask = s.appTask) := by
  intro s e
  exact ⟨⟨rfl, rfl, rfl, rfl, rfl, rfl⟩, ⟨rfl, rfl, rfl, rfl, rfl, rfl⟩,
    ⟨rfl, rfl, rfl, rfl, rfl, rfl⟩, ⟨rfl, rfl, rfl, rfl, rfl, rfl⟩,
    ⟨rfl, rfl, rfl, rfl, rfl, rfl⟩⟩

/-- C10 witness: the frame property evaluated at the initial queue state with
a concrete error. -/
theorem queueSlice_error_reducers_frame_witness :
    ((appTaskQueueError initialState ("boom")).appTask.error = some ("boom")
      ∧ (appTaskQueueError initialState ("boom")).appTask.isDone = initialState.appTask.isDone
      ∧ (appTaskQueueError initialState ("boom")).dataTask = initialState.dataTask
      ∧ (appTaskQueueError initialState ("boom")).userTask = initialState.userTask
      ∧ (appTaskQueueError initialState ("boom")).infoTask = initialState.infoTask
      ∧ (appTaskQueueError initialState ("boom")).stateless = initialState.stateless)
    ∧ ((userTaskQueueError initialState ("boom")).userTask.error = some ("boom")
      ∧ (userTaskQueueError initialState ("boom")).userTask.isDone = initialState.userTask.isDone
      ∧ (userTaskQueueError initialState ("boom")).dataTask = initialState.dataTask
      ∧ (userTaskQueueError initialState ("boom")).appTask = initialState.appTask
      ∧ (userTaskQueueError initialState ("boom")).infoTask = initialState.infoTask
      ∧ (userTaskQueueError initialState ("boom")).stateless = initialState.stateless)
    ∧ ((dataTaskQueueError initialState ("boom")).dataTask.error = some ("boom")
      ∧ (dataTaskQueueError initialState ("boom")).dataTask.isDone = initialState.dataTask.isDone
      ∧ (dataTaskQueueError initialState ("boom")).appTask = initialState.appTask
      ∧ (dataTaskQueueError initialState ("boom")).userTask = initialState.userTask
      ∧ (dataTaskQueueError initialState ("boom")).infoTask = initialState.infoTask
      ∧ (dataTaskQueueError initialState ("boom")).stateless = initialState.stateless)
    ∧ ((infoTaskQueueError initialState ("boom")).infoTask.error = some ("boom")
      ∧ (infoTaskQueueError initialState ("boom")).infoTask.isDone = initialState.infoTask.isDone
      ∧ (infoTaskQueueError initialState ("boom")).dataTask = initialState.dataTask
      ∧ (infoTaskQueueError initialState ("boom")).userTask = initialState.userTask
      ∧ (infoTaskQueueError initialState ("boom")).appTask = initialState.appTask
      ∧ (infoTaskQueueError initialState ("boom")).stateless = initialState.stateless)
    ∧ ((statelessQueueError initialState ("boom")).stateless.error = some ("boom")
      ∧ (statelessQueueError initialState ("boom")).stateless.isDone = initialState.stateless.isDone
      ∧ (statelessQueueError initialState ("boom")).dataTask = initialState.dataTask
      ∧ (statelessQueueError initialState ("boom")).userTask = initialState.userTask
      ∧ (statelessQueueError initialState ("boom")).infoTask = initialState.infoTask
      ∧ (statelessQueueError initialState ("boom")).appTask = initialState.appTask) :=
  queueSlice_error_reducers_frame initialState ("boom")

/- ===== Helper lemmas: refetch reactor ===== -/

theorem refetchExactStep_foldl (field : FieldPath) :
    ∀ (l : List StoredAppList) (acc : Bool × List IFetchSpecificAppListSaga),
      l.foldl (refetchExactStep field) acc =
        ((acc.1 || l.any (hasExactMatch field)),
          acc.2 ++ (l.filter (hasExactMatch field)).map exactForkOf) := by
  intro l
  induction l with
  | nil => intro acc; simp
  | cons e t ih =>
    intro acc
    cases hm : e.mapping with
    | none =>
        simp [List.foldl_cons, refetchExactStep, hm, ih, hasExactMatch]
    | some m =>
        by_cases hf : field ∈ m.map Prod.fst
        · simp [List.foldl_cons, refetchExactStep, hm, hf, ih, hasExactMatch, exactForkOf,
            List.append_assoc]
        · simp [List.foldl_cons, refetchExactStep, hm, hf, ih, hasExactMatch]

theorem refetchTemplateStep_foldl (field : FieldPath) :
    ∀ (l : List IAppListsMetaData) (acc : List IFetchSpecificAppListSaga),
      l.foldl (refetchTemplateStep field) acc =
        acc ++ (l.filter (templateMatch field)).map (templateForkOf field) := by
  intro l
  induction l with
  | nil => intro acc; simp
  | cons t ts ih =>
    intro acc
    rw [List.foldl_cons, ih, List.filter_cons]
    cases hm : t.mapping with
    | none =>
        have hmatch : templateMatch field t = false := by simp [templateMatch, hm]
        have hstep : refetchTemplateStep field acc t = acc := by
          simp [refetchTemplateStep, hm]
        simp [hstep, hmatch]
    | some m =>
        by_cases hf : getKeyWithoutIndex field ∈ (m.map Prod.fst).map getKeyWithoutIndexIndicators
        · have hmatch : templateMatch field t = true := by
            simp only [templateMatch, hm]
            exact decide_eq_true hf
          have hstep : refetchTemplateStep field acc t =
              acc ++ [⟨t.id, some (newDataMappingFor field m), t.secure⟩] := by
            simp only [refetchTemplateStep, hm]
            rw [if_pos hf]
          have hfork : templateForkOf field t =
              ⟨t.id, some (newDataMappingFor field m), t.secure⟩ := by
            simp [templateForkOf, hm]
          simp [hstep, hmatch, hfork]
        · have hmatch : templateMatch field t = false := by
            simp only [templateMatch, hm]
            exact decide_eq_false hf
          have hstep : refetchTemplateStep field acc t = acc := by
            simp only [refetchTemplateStep, hm]
            rw [if_neg hf]
          simp [hstep, hmatch]

theorem refetch_exact_run (field : FieldPath) (appLists : List StoredAppList)
    (inds : List IAppListsMetaData)
    (h : ∃ e ∈ appLists, hasExactMatch field e = true) :
    checkIfAppListsShouldRefetchSaga field appLists inds =
      (appLists.filter (hasExactMatch field)).map exactForkOf := by
  unfold checkIfAppListsShouldRefetchSaga
  rw [refetchExactStep_foldl]
  have hany : appLists.any (hasExactMatch field) = true := by
    rw [List.any_eq_true]
    obtain ⟨e, he, hmatch⟩ := h
    exact ⟨e, he, hmatch⟩
  simp [hany]

theorem refetch_template_run (field : FieldPath) (appLists : List StoredAppList)
    (inds : List IAppListsMetaData)
    (h : ∀ e ∈ appLists, hasExactMatch field e = false) :
    checkIfAppListsShouldRefetchSaga field appLists inds =
      (inds.filter (templateMatch field)).map (templateForkOf field) := by
  unfold checkIfAppListsShouldRefetchSaga
  rw [refetchExactStep_foldl, refetchTemplateStep_foldl]
  have hany : appLists.any (hasExactMatch field) = false := by
    rw [List.any_eq_false]
    intro e he
    simp [h e he]
  have hfil : appLists.filter (hasExactMatch field) = [] := by
    rw [List.filter_eq_nil_iff]
    intro e he
    simp [h e he]
  simp [hany, hfil]

theorem objAssign_foldl_fresh (r : FieldPath → FieldPath) :
    ∀ (m acc : DataMapping),
      ((m.map (fun kv => r kv.1)).Nodup) →
      (∀ kv ∈ m, ¬ r kv.1 ∈ acc.map Prod.fst) →
      m.foldl (fun nm kv => objAssign nm (r kv.1) kv.2) acc =
        acc ++ m.map (fun kv => (r kv.1, kv.2)) := by
  intro m
  induction m with
  | nil => intro acc _ _; simp
  | cons kv t ih =>
    intro acc hnd hfresh
    rw [List.foldl_cons]
    have hko : ¬ r kv.1 ∈ acc.map Prod.fst := hfresh kv (List.mem_cons_self _ _)
    have hstep : objAssign acc (r kv.1) kv.2 = acc ++ [(r kv.1, kv.2)] := by
      simp [objAssign, hko]
    have hnd2 : ((t.map (fun kv => r kv.1)).Nodup) := by
      simp only [List.map_cons, List.nodup_cons] at hnd
      exact hnd.2
    have hhead : ¬ r kv.1 ∈ t.map (fun kv2 => r kv2.1) := by
      simp only [List.map_cons, List.nodup_cons] at hnd
      exact hnd.1
    rw [hstep, ih (acc ++ [(r kv.1, kv.2)]) hnd2 ?fresh]
    · simp
    case fresh =>
      intro kv2 hkv2
      have h1 : ¬ r kv2.1 ∈ acc.map Prod.fst := hfresh kv2 (List.mem_cons_of_mem _ hkv2)
      have h2 : r kv2.1 ≠ r kv.1 := by
        intro he
        exact hhead (he ▸ List.mem_map_of_mem (fun kv2 => r kv2.1) hkv2)
      simp [List.map_append, h1, h2]

theorem newDataMappingFor_concretizes (field : FieldPath) (m : DataMapping)
    (h : (m.map (fun kv => replaceIndexIndicatorsWithIndexes kv.1 (getKeyIndex field))).Nodup) :
    newDataMappingFor field m =
      m.map (fun kv => (replaceIndexIndicatorsWithIndexes kv.1 (getKeyIndex field), kv.2)) := by
  have := objAssign_foldl_fresh
    (fun p => replaceIndexIndicatorsWithIndexes p (getKeyIndex field)) m [] h (by simp)
  simpa [newDataMappingFor] using this

/- ===== Claims C2, C4, C6, C9 ===== -/

/-- C2: when at least one stored app list entry mapping has the changed field
among its keys, the reactor forks exactly one refetch per such entry (in store
order) and nothing else, so the template keys are never scanned; templates are
consulted only when no stored mapping contains the changed field, in which
case every fork stems from a matching template. Exact-key matches thus take
precedence over template matches. -/
theorem checkIfAppListsShouldRefetchSaga_exact_match_precedence :
    ∀ (field : FieldPath) (appLists : List StoredAppList) (inds : List IAppListsMetaData),
      ((∃ e ∈ appLists, hasExactMatch field e = true) →
        checkIfAppListsShouldRefetchSaga field appLists inds =
          (appLists.filter (hasExactMatch field)).map exactForkOf)
      ∧ ((∀ e ∈ appLists, hasExactMatch field e = false) →
        ∀ f ∈ checkIfAppListsShouldRefetchSaga field appLists inds,
          ∃ t ∈ inds, templateMatch field t = true ∧ f = templateForkOf field t) := by
  intro field appLists inds
  constructor
  · exact refetch_exact_run field appLists inds
  · intro h f hf
    rw [refetch_template_run field appLists inds h] at hf
    obtain ⟨t, ht, rfl⟩ := List.mem_map.mp hf
    have := List.mem_filter.mp ht
    exact ⟨t, this.1, this.2, rfl⟩

/-- C4: when no concrete key matched, the reactor forks exactly one fetch per
template entry whose mapping has a key whose indicator-stripped form equals
the index-stripped changed field, with the template id and secure flag and the
concretized mapping, and refetches no other key; and whenever the concretized
keys are distinct, the new mapping replaces the index indicators of every
template mapping key by the indices extracted from the changed field while
keeping each mapped value unchanged. -/
theorem checkIfAppListsShouldRefetchSaga_template_concretization :
    ∀ (field : FieldPath) (appLists : List StoredAppList) (inds : List IAppListsMetaData),
      (∀ e ∈ appLists, hasExactMatch field e = false) →
      (checkIfAppListsShouldRefetchSaga field appLists inds =
        (inds.filter (templateMatch field)).map (templateForkOf field))
      ∧ ∀ m : DataMapping,
          (m.map (fun kv => replaceIndexIndicatorsWithIndexes kv.1 (getKeyIndex field))).Nodup →
          newDataMappingFor field m =
            m.map (fun kv => (replaceIndexIndicatorsWithIndexes kv.1 (getKeyIndex field), kv.2)) := by
  intro field appLists inds h
  exact ⟨refetch_template_run field appLists inds h,
    fun m hm => newDataMappingFor_concretizes field m hm⟩

/-- C6: if the remote get call (or any later step of the try block, modelled
through the Except result of the call) in fetchSpecificAppListSaga throws, the
saga catches the error and dispatches fetchRejected carrying the lookup key
computed at entry together with the error, and terminates normally with
exactly these two dispatches, so a failed fetch for one key never aborts
fetches forked for other keys. -/
theorem fetchSpecificAppListSaga_error_recovery :
    ∀ (a : IFetchSpecificAppListSaga) (env : FetchEnv) (e : String),
      env.remote (getAppListsUrl a.appListId env.formData env.language a.dataMapping
        a.secure env.instanceId) = Except.error e →
      fetchSpecificAppListSaga a env =
        [SagaAction.fetching (getAppListLookupKey a.appListId a.dataMapping)
            ⟨a.appListId, a.dataMapping, a.secure⟩,
          SagaAction.fetchRejected (getAppListLookupKey a.appListId a.dataMapping) e] := by
  intro a env e h
  simp [fetchSpecificAppListSaga, h]

/-- C6 witness: a remote call that always fails produces the fetching dispatch
followed by fetchRejected with the entry key and the error. -/
theorem fetchSpecificAppListSaga_error_recovery_witness :
    (FetchEnv.mk none [] ("nb") (fun _ => Except.error ("network down"))).remote
        (getAppListsUrl (some ("list1")) [] ("nb") none (some false) none) =
      Except.error ("network down")
    ∧ fetchSpecificAppListSaga ⟨some ("list1"), none, some false⟩
        ⟨none, [], ("nb"), fun _ => Except.error ("network down")⟩ =
      [SagaAction.fetching (getAppListLookupKey (some ("list1")) none)
          ⟨some ("list1"), none, some false⟩,
        SagaAction.fetchRejected (getAppListLookupKey (some ("list1")) none) ("network down")] :=
  ⟨rfl, fetchSpecificAppListSaga_error_recovery ⟨some ("list1"), none, some false⟩
    ⟨none, [], ("nb"), fun _ => Except.error ("network down")⟩ ("network down") rfl⟩

/-- C9: every run of fetchSpecificAppListSaga dispatches fetching first, then
exactly one terminal action (fetchFulfilled or fetchRejected), and every
dispatched action carries the identical lookup key computed once at entry
from the appListId and dataMapping. -/
theorem fetchSpecificAppListSaga_action_protocol :
    ∀ (a : IFetchSpecificAppListSaga) (env : FetchEnv),
      ∃ done : SagaAction,
        fetchSpecificAppListSaga a env =
          [SagaAction.fetching (getAppListLookupKey a.appListId a.dataMapping)
              ⟨a.appListId, a.dataMapping, a.secure⟩, done]
        ∧ isTerminalAction done = true
        ∧ ∀ x ∈ fetchSpecificAppListSaga a env,
            actionKey x = some (getAppListLookupKey a.appListId a.dataMapping) := by
  intro a env
  cases h : env.remote (getAppListsUrl a.appListId env.formData env.language a.dataMapping
      a.secure env.instanceId) with
  | ok r =>
      refine ⟨SagaAction.fetchFulfilled (getAppListLookupKey a.appListId a.dataMapping)
        r.listItems, ?_, ?_, ?_⟩
      · simp [fetchSpecificAppListSaga, h]
      · rfl
      · intro x hx
        simp [fetchSpecificAppListSaga, h] at hx
        rcases hx with rfl | rfl <;> rfl
  | error e =>
      refine ⟨SagaAction.fetchRejected (getAppListLookupKey a.appListId a.dataMapping) e,
        ?_, ?_, ?_⟩
      · simp [fetchSpecificAppListSaga, h]
      · rfl
      · intro x hx
        simp [fetchSpecificAppListSaga, h] at hx
        rcases hx with rfl | rfl <;> rfl

/-- C9 witness: the protocol evaluated at a concrete argument and remote
environment. -/
theorem fetchSpecificAppListSaga_action_protocol_witness :
    ∃ done : SagaAction,
      fetchSpecificAppListSaga ⟨some ("list2"), none, none⟩
          ⟨none, [], ("en"), fun _ => Except.ok ⟨[("item1")]⟩⟩ =
        [SagaAction.fetching (getAppListLookupKey (some ("list2")) none)
            ⟨some ("list2"), none, none⟩, done]
      ∧ isTerminalAction done = true
      ∧ ∀ x ∈ fetchSpecificAppListSaga ⟨some ("list2"), none, none⟩
            ⟨none, [], ("en"), fun _ => Except.ok ⟨[("item1")]⟩⟩,
          actionKey x = some (getAppListLookupKey (some ("list2")) none) :=
  fetchSpecificAppListSaga_action_protocol ⟨some ("list2"), none, none⟩
    ⟨none, [], ("en"), fun _ => Except.ok ⟨[("item1")]⟩⟩

/-- C2 witness: an exact match hides a matching template (first input), and
with no exact match every fork stems from a matching template (second
input). -/
theorem checkIfAppListsShouldRefetchSaga_exact_match_precedence_witness :
    ((∃ e ∈ ([⟨some ("x"), some [([Seg.name ("a")], "out")], some false⟩] : List StoredAppList),
        hasExactMatch [Seg.name ("a")] e = true)
      ∧ checkIfAppListsShouldRefetchSaga [Seg.name ("a")]
          [⟨some ("x"), some [([Seg.name ("a")], "out")], some false⟩]
          [⟨some ("t"), some [([Seg.name ("a"), Seg.indicator], "out")], some false⟩] =
        (([⟨some ("x"), some [([Seg.name ("a")], "out")], some false⟩] : List StoredAppList).filter
          (hasExactMatch [Seg.name ("a")])).map exactForkOf)
    ∧ ((∀ e ∈ ([] : List StoredAppList),
          hasExactMatch [Seg.name ("persons"), Seg.idx 1, Seg.name ("name")] e = false)
      ∧ ∀ f ∈ checkIfAppListsShouldRefetchSaga
            [Seg.name ("persons"), Seg.idx 1, Seg.name ("name")] []
            [⟨some ("list1"),
              some [([Seg.name ("persons"), Seg.indicator, Seg.name ("name")], "label")],
              some false⟩],
          ∃ t ∈ ([⟨some ("list1"),
              some [([Seg.name ("persons"), Seg.indicator, Seg.name ("name")], "label")],
              some false⟩] : List IAppListsMetaData),
            templateMatch [Seg.name ("persons"), Seg.idx 1, Seg.name ("name")] t = true
            ∧ f = templateForkOf [Seg.name ("persons"), Seg.idx 1, Seg.name ("name")] t) :=
  ⟨⟨by decide,
    (checkIfAppListsShouldRefetchSaga_exact_match_precedence _ _ _).1 (by decide)⟩,
   ⟨by decide,
    (checkIfAppListsShouldRefetchSaga_exact_match_precedence _ _ _).2 (by decide)⟩⟩

/-- C4 witness: the spec scenario, changed field persons.1.name against the
stored template persons.(placeholder).name. -/
theorem checkIfAppListsShouldRefetchSaga_template_concretization_witness :
    (∀ e ∈ ([] : List StoredAppList),
        hasExactMatch [Seg.name ("persons"), Seg.idx 1, Seg.name ("name")] e = false)
    ∧ ((checkIfAppListsShouldRefetchSaga [Seg.name ("persons"), Seg.idx 1, Seg.name ("name")] []
          [⟨some ("list1"),
            some [([Seg.name ("persons"), Seg.indicator, Seg.name ("name")], "label")],
            some false⟩] =
       (([⟨some ("list1"),
            some [([Seg.name ("persons"), Seg.indicator, Seg.name ("name")], "label")],
            some false⟩] : List IAppListsMetaData).filter
          (templateMatch [Seg.name ("persons"), Seg.idx 1, Seg.name ("name")])).map
          (templateForkOf [Seg.name ("persons"), Seg.idx 1, Seg.name ("name")]))
      ∧ ∀ m : DataMapping,
          (m.map (fun kv => replaceIndexIndicatorsWithIndexes kv.1
            (getKeyIndex [Seg.name ("persons"), Seg.idx 1, Seg.name ("name")]))).Nodup →
          newDataMappingFor [Seg.name ("persons"), Seg.idx 1, Seg.name ("name")] m =
            m.map (fun kv => (replaceIndexIndicatorsWithIndexes kv.1
              (getKeyIndex [Seg.name ("persons"), Seg.idx 1, Seg.name ("name")]), kv.2))) :=
  ⟨by decide,
   checkIfAppListsShouldRefetchSaga_template_concretization
     [Seg.name ("persons"), Seg.idx 1, Seg.name ("name")] []
     [⟨some ("list1"),
       some [([Seg.name ("persons"), Seg.indicator, Seg.name ("name")], "label")],
       some false⟩] (by decide)⟩

/- ===== Helper lemmas: fetch orchestrator ===== -/

theorem fetchAppListsSagaKeyStep_falsy (aid : Option String) (h : jsTruthyStr aid = false)
    (st : OrchestratorState) (k : IAppListsMetaData) :
    fetchAppListsSagaKeyStep aid st k = st := by
  simp [fetchAppListsSagaKeyStep, h]

theorem fetchAppListsSagaKeyStep_truthy (aid : Option String) (h : jsTruthyStr aid = true)
    (st : OrchestratorState) (k : IAppListsMetaData) :
    fetchAppListsSagaKeyStep aid st k =
      dedupStep st (getAppListLookupKey k.id k.mapping, ⟨aid, k.mapping, k.secure⟩) := by
  by_cases hmem : getAppListLookupKey k.id k.mapping ∈ st.fetchedAppLists
  · simp [fetchAppListsSagaKeyStep, dedupStep, h, hmem]
  · simp [fetchAppListsSagaKeyStep, dedupStep, h, hmem]

theorem keysFoldl_truthy (aid : Option String) (h : jsTruthyStr aid = true) :
    ∀ (keys : List IAppListsMetaData) (st : OrchestratorState),
      keys.foldl (fetchAppListsSagaKeyStep aid) st =
        (keys.map (fun k => (getAppListLookupKey k.id k.mapping,
          (⟨aid, k.mapping, k.secure⟩ : IFetchSpecificAppListSaga)))).foldl dedupStep st := by
  intro keys
  induction keys with
  | nil => intro st; rfl
  | cons k t ih =>
      intro st
      rw [List.foldl_cons, List.map_cons, List.foldl_cons,
        fetchAppListsSagaKeyStep_truthy aid h, ih]

theorem keysFoldl_falsy (aid : Option String) (h : jsTruthyStr aid = false) :
    ∀ (keys : List IAppListsMetaData) (st : OrchestratorState),
      keys.foldl (fetchAppListsSagaKeyStep aid) st = st := by
  intro keys
  induction keys with
  | nil => intro st; rfl
  | cons k t ih =>
      intro st
      rw [List.foldl_cons, fetchAppListsSagaKeyStep_falsy aid h, ih]

/-- Forget the collected template keys of an orchestrator state (they evolve
independently of the dedup and fork fields). -/
def eraseInd (st : OrchestratorState) : OrchestratorState :=
  { st with appListsWithIndexIndicators := [] }

theorem eraseInd_dedupStep (st : OrchestratorState)
    (o : LookupKey × IFetchSpecificAppListSaga) :
    eraseInd (dedupStep st o) = dedupStep (eraseInd st) o := by
  by_cases hmem : o.1 ∈ st.fetchedAppLists
  · simp [dedupStep, eraseInd, hmem]
  · simp [dedupStep, eraseInd, hmem]

theorem eraseInd_dedupFoldl :
    ∀ (l : List (LookupKey × IFetchSpecificAppListSaga)) (st : OrchestratorState),
      eraseInd (l.foldl dedupStep st) = l.foldl dedupStep (eraseInd st) := by
  intro l
  induction l with
  | nil => intro st; rfl
  | cons o t ih =>
      intro st
      rw [List.foldl_cons, List.foldl_cons, ih, eraseInd_dedupStep]

theorem ind_dedupStep (st : OrchestratorState) (o : LookupKey × IFetchSpecificAppListSaga) :
    (dedupStep st o).appListsWithIndexIndicators = st.appListsWithIndexIndicators := by
  by_cases hmem : o.1 ∈ st.fetchedAppLists
  · simp [dedupStep, hmem]
  · simp [dedupStep, hmem]

theorem ind_dedupFoldl :
    ∀ (l : List (LookupKey × IFetchSpecificAppListSaga)) (st : OrchestratorState),
      (l.foldl dedupStep st).appListsWithIndexIndicators = st.appListsWithIndexIndicators := by
  intro l
  induction l with
  | nil => intro st; rfl
  | cons o t ih =>
      intro st
      rw [List.foldl_cons, ih, ind_dedupStep]

theorem eraseInd_elementStep (rg : IRepeatingGroups) (st : OrchestratorState)
    (e : ILayoutCompList) :
    eraseInd (fetchAppListsSagaElementStep rg st e) =
      (elementOccurrences rg e).foldl dedupStep (eraseInd st) := by
  cases hj : jsTruthyStr e.appListId with
  | true =>
      simp only [fetchAppListsSagaElementStep, elementOccurrences, hj, if_true]
      cases hki : (getAppListLookupKeys e.appListId e.mapping e.secure rg).keyWithIndexIndicator with
      | none =>
          rw [keysFoldl_truthy _ hj, eraseInd_dedupFoldl]
      | some k =>
          rw [keysFoldl_truthy _ hj, eraseInd_dedupFoldl]
          rfl
  | false =>
      simp only [fetchAppListsSagaElementStep, elementOccurrences, hj]
      cases hki : (getAppListLookupKeys e.appListId e.mapping e.secure rg).keyWithIndexIndicator with
      | none => rw [keysFoldl_falsy _ hj]; rfl
      | some k => rw [keysFoldl_falsy _ hj]; rfl

theorem ind_keyStep (aid : Option String) (st : OrchestratorState) (k : IAppListsMetaData) :
    (fetchAppListsSagaKeyStep aid st k).appListsWithIndexIndicators =
      st.appListsWithIndexIndicators := by
  by_cases h : jsTruthyStr aid = true ∧
      ¬ getAppListLookupKey k.id k.mapping ∈ st.fetchedAppLists
  · simp [fetchAppListsSagaKeyStep, h]
  · simp [fetchAppListsSagaKeyStep, h]

theorem ind_keysFoldl (aid : Option String) :
    ∀ (keys : List IAppListsMetaData) (st : OrchestratorState),
      (keys.foldl (fetchAppListsSagaKeyStep aid) st).appListsWithIndexIndicators =
        st.appListsWithIndexIndicators := by
  intro keys
  induction keys with
  | nil => intro st; rfl
  | cons k t ih =>
      intro st
      rw [List.foldl_cons, ih, ind_keyStep]

theorem ind_elementStep (rg : IRepeatingGroups) (st : OrchestratorState)
    (e : ILayoutCompList) :
    (fetchAppListsSagaElementStep rg st e).appListsWithIndexIndicators =
      st.appListsWithIndexIndicators ++ indicatorListOf rg e := by
  simp only [fetchAppListsSagaElementStep, indicatorListOf]
  cases hki : (getAppListLookupKeys e.appListId e.mapping e.secure rg).keyWithIndexIndicator with
  | none => rw [ind_keysFoldl]; simp
  | some k => rw [ind_keysFoldl]; simp

theorem eraseInd_elementsFoldl (rg : IRepeatingGroups) :
    ∀ (es : List ILayoutCompList) (st : OrchestratorState),
      eraseInd (es.foldl (fetchAppListsSagaElementStep rg) st) =
        (es.flatMap (elementOccurrences rg)).foldl dedupStep (eraseInd st) := by
  intro es
  induction es with
  | nil => intro st; rfl
  | cons e t ih =>
      intro st
      rw [List.foldl_cons, ih, eraseInd_elementStep, List.flatMap_cons, List.foldl_append]

theorem ind_elementsFoldl (rg : IRepeatingGroups) :
    ∀ (es : List ILayoutCompList) (st : OrchestratorState),
      (es.foldl (fetchAppListsSagaElementStep rg) st).appListsWithIndexIndicators =
        st.appListsWithIndexIndicators ++ es.flatMap (indicatorListOf rg) := by
  intro es
  induction es with
  | nil => intro st; simp
  | cons e t ih =>
      intro st
      rw [List.foldl_cons, ih, ind_elementStep, List.flatMap_cons, List.append_assoc]

theorem eraseInd_pagesFoldl (rg : IRepeatingGroups) :
    ∀ (layouts : ILayouts) (st : OrchestratorState),
      eraseInd (layouts.foldl
          (fun s pg => pg.2.foldl (fetchAppListsSagaElementStep rg) s) st) =
        (layouts.flatMap (fun pg => pg.2.flatMap (elementOccurrences rg))).foldl dedupStep
          (eraseInd st) := by
  intro layouts
  induction layouts with
  | nil => intro st; rfl
  | cons pg t ih =>
      intro st
      rw [List.foldl_cons, ih, eraseInd_elementsFoldl, List.flatMap_cons, List.foldl_append]

theorem ind_pagesFoldl (rg : IRepeatingGroups) :
    ∀ (layouts : ILayouts) (st : OrchestratorState),
      (layouts.foldl (fun s pg => pg.2.foldl (fetchAppListsSagaElementStep rg) s)
          st).appListsWithIndexIndicators =
        st.appListsWithIndexIndicators ++
          layouts.flatMap (fun pg => pg.2.flatMap (indicatorListOf rg)) := by
  intro layouts
  induction layouts with
  | nil => intro st; simp
  | cons pg t ih =>
      intro st
      rw [List.foldl_cons, ih, ind_elementsFoldl, List.flatMap_cons, List.append_assoc]

theorem dedupFoldl_fetched :
    ∀ (l : List (LookupKey × IFetchSpecificAppListSaga)) (st : OrchestratorState),
      (l.foldl dedupStep st).fetchedAppLists =
        st.fetchedAppLists ++ (firstPerKeyAux st.fetchedAppLists l).map Prod.fst := by
  intro l
  induction l with
  | nil => intro st; simp [firstPerKeyAux]
  | cons o t ih =>
      intro st
      by_cases hmem : o.1 ∈ st.fetchedAppLists
      · have hstep : dedupStep st o = st := by simp [dedupStep, hmem]
        rw [List.foldl_cons, hstep, ih]
        simp [firstPerKeyAux, hmem]
      · have hstep : dedupStep st o = { st with
            fetchedAppLists := st.fetchedAppLists ++ [o.1],
            forks := st.forks ++ [o.2],
            trace := st.trace ++ forkSyncActions o.2 } := by
          simp [dedupStep, hmem]
        rw [List.foldl_cons, hstep, ih]
        simp [firstPerKeyAux, hmem]

theorem dedupFoldl_forks :
    ∀ (l : List (LookupKey × IFetchSpecificAppListSaga)) (st : OrchestratorState),
      (l.foldl dedupStep st).forks =
        st.forks ++ (firstPerKeyAux st.fetchedAppLists l).map Prod.snd := by
  intro l
  induction l with
  | nil => intro st; simp [firstPerKeyAux]
  | cons o t ih =>
      intro st
      by_cases hmem : o.1 ∈ st.fetchedAppLists
      · have hstep : dedupStep st o = st := by simp [dedupStep, hmem]
        rw [List.foldl_cons, hstep, ih]
        simp [firstPerKeyAux, hmem]
      · have hstep : dedupStep st o = { st with
            fetchedAppLists := st.fetchedAppLists ++ [o.1],
            forks := st.forks ++ [o.2],
            trace := st.trace ++ forkSyncActions o.2 } := by
          simp [dedupStep, hmem]
        rw [List.foldl_cons, hstep, ih]
        simp [firstPerKeyAux, hmem]

theorem dedupFoldl_trace :
    ∀ (l : List (LookupKey × IFetchSpecificAppListSaga)) (st : OrchestratorState),
      (l.foldl dedupStep st).trace =
        st.trace ++ ((firstPerKeyAux st.fetchedAppLists l).map Prod.snd).flatMap
          forkSyncActions := by
  intro l
  induction l with
  | nil => intro st; simp [firstPerKeyAux]
  | cons o t ih =>
      intro st
      by_cases hmem : o.1 ∈ st.fetchedAppLists
      · have hstep : dedupStep st o = st := by simp [dedupStep, hmem]
        rw [List.foldl_cons, hstep, ih]
        simp [firstPerKeyAux, hmem]
      · have hstep : dedupStep st o = { st with
            fetchedAppLists := st.fetchedAppLists ++ [o.1],
            forks := st.forks ++ [o.2],
            trace := st.trace ++ forkSyncActions o.2 } := by
          simp [dedupStep, hmem]
        rw [List.foldl_cons, hstep, ih]
        simp [firstPerKeyAux, hmem]

theorem firstPerKeyAux_nodup :
    ∀ (l : List (LookupKey × IFetchSpecificAppListSaga)) (seen : List LookupKey),
      (((firstPerKeyAux seen l).map Prod.fst).Nodup)
      ∧ ∀ k ∈ (firstPerKeyAux seen l).map Prod.fst, ¬ k ∈ seen := by
  intro l
  induction l with
  | nil => intro seen; simp [firstPerKeyAux]
  | cons o t ih =>
      intro seen
      by_cases hmem : o.1 ∈ seen
      · simpa [firstPerKeyAux, hmem] using ih seen
      · have iht := ih (seen ++ [o.1])
        simp only [firstPerKeyAux, if_neg hmem, List.map_cons, List.nodup_cons]
        refine ⟨⟨fun hin => ?_, iht.1⟩, ?_⟩
        · exact (iht.2 o.1 hin) (List.mem_append_right _ (List.mem_singleton.mpr rfl))
        · intro k hk
          rcases List.mem_cons.mp hk with rfl | hk2
          · exact hmem
          · intro hs
            exact (iht.2 k hk2) (List.mem_append_left _ hs)

theorem firstPerKeyAux_mem :
    ∀ (l : List (LookupKey × IFetchSpecificAppListSaga)) (seen : List LookupKey)
      (k : LookupKey),
      k ∈ (firstPerKeyAux seen l).map Prod.fst ↔
        (k ∈ l.map Prod.fst ∧ ¬ k ∈ seen) := by
  intro l
  induction l with
  | nil => intro seen k; simp [firstPerKeyAux]
  | cons o t ih =>
      intro seen k
      by_cases hmem : o.1 ∈ seen
      · rw [firstPerKeyAux]
        rw [if_pos hmem]
        rw [ih]
        simp only [List.map_cons, List.mem_cons]
        constructor
        · rintro ⟨hk, hns⟩
          exact ⟨Or.inr hk, hns⟩
        · rintro ⟨hk | hk, hns⟩
          · exact absurd (hk ▸ hmem) hns
          · exact ⟨hk, hns⟩
      · rw [firstPerKeyAux]
        rw [if_neg hmem]
        simp only [List.map_cons, List.mem_cons, ih]
        constructor
        · rintro (rfl | ⟨hk, hns⟩)
          · exact ⟨Or.inl rfl, hmem⟩
          · exact ⟨Or.inr hk, fun hs => hns (List.mem_append_left _ hs)⟩
        · rintro ⟨hk | hk, hns⟩
          · exact Or.inl hk
          · by_cases he : k = o.1
            · exact Or.inl he
            · refine Or.inr ⟨hk, fun hs => ?_⟩
              rcases List.mem_append.mp hs with h1 | h1
              · exact hns h1
              · exact he (List.mem_singleton.mp h1)

theorem orchestratorCore_eraseInd (layouts : ILayouts) (rg : IRepeatingGroups) :
    eraseInd (orchestratorCore layouts rg) =
      (guardedOccurrences layouts rg).foldl dedupStep initialOrchestratorState := by
  have h := eraseInd_pagesFoldl rg layouts initialOrchestratorState
  simpa [orchestratorCore, guardedOccurrences, eraseInd, initialOrchestratorState] using h

theorem orchestratorCore_ind (layouts : ILayouts) (rg : IRepeatingGroups) :
    (orchestratorCore layouts rg).appListsWithIndexIndicators = allIndicators layouts rg := by
  have h := ind_pagesFoldl rg layouts initialOrchestratorState
  simpa [orchestratorCore, allIndicators, initialOrchestratorState] using h

theorem orchestratorCore_forks (layouts : ILayouts) (rg : IRepeatingGroups) :
    (orchestratorCore layouts rg).forks =
      (firstPerKey (guardedOccurrences layouts rg)).map Prod.snd := by
  have h := congrArg OrchestratorState.forks (orchestratorCore_eraseInd layouts rg)
  rw [dedupFoldl_forks] at h
  simpa [eraseInd, initialOrchestratorState, firstPerKey] using h

theorem orchestratorCore_trace (layouts : ILayouts) (rg : IRepeatingGroups) :
    (orchestratorCore layouts rg).trace =
      ((firstPerKey (guardedOccurrences layouts rg)).map Prod.snd).flatMap
        forkSyncActions := by
  have h := congrArg OrchestratorState.trace (orchestratorCore_eraseInd layouts rg)
  rw [dedupFoldl_trace] at h
  simpa [eraseInd, initialOrchestratorState, firstPerKey] using h

theorem fetchAppListsSaga_forks_core (layouts : ILayouts) (rg : IRepeatingGroups) :
    (fetchAppListsSaga layouts rg).forks = (orchestratorCore layouts rg).forks := rfl

theorem fetchAppListsSaga_ind_core (layouts : ILayouts) (rg : IRepeatingGroups) :
    (fetchAppListsSaga layouts rg).appListsWithIndexIndicators =
      (orchestratorCore layouts rg).appListsWithIndexIndicators := rfl

theorem fetchAppListsSaga_trace_eq (layouts : ILayouts) (rg : IRepeatingGroups) :
    (fetchAppListsSaga layouts rg).trace =
      ((firstPerKey (guardedOccurrences layouts rg)).map Prod.snd).flatMap forkSyncActions ++
        [SagaAction.setAppListsWithIndexIndicators
          (fetchAppListsSaga layouts rg).appListsWithIndexIndicators] := by
  show (orchestratorCore layouts rg).trace ++
      [SagaAction.setAppListsWithIndexIndicators
        (orchestratorCore layouts rg).appListsWithIndexIndicators] = _
  rw [orchestratorCore_trace]
  rfl

theorem forkSync_flatMap_not_set_not_terminal :
    ∀ (l : List IFetchSpecificAppListSaga) (a : SagaAction),
      a ∈ l.flatMap forkSyncActions → isSetAction a = false ∧ isTerminalAction a = false := by
  intro l a ha
  rcases List.mem_flatMap.mp ha with ⟨f, _, haf⟩
  simp only [forkSyncActions, List.mem_singleton] at haf
  subst haf
  exact ⟨rfl, rfl⟩

/- ===== Claims C1, C5 ===== -/

/-- C1: a single fetchAppListsSaga pass forks fetchSpecificAppListSaga exactly
once per distinct lookup key (computed by getAppListLookupKey from the
resolved key id and mapping) among the occurrences with a truthy appListId:
the fork list equals the keep-first-occurrence-per-key sublist of the guarded
occurrence list in traversal order, the kept key list has no duplicates, and
it covers exactly the keys occurring in the pass (so every later occurrence
of an already fetched key is skipped). -/
theorem fetchAppListsSaga_forks_once_per_lookup_key :
    ∀ (layouts : ILayouts) (repeatingGroups : IRepeatingGroups),
      (fetchAppListsSaga layouts repeatingGroups).forks =
          (firstPerKey (guardedOccurrences layouts repeatingGroups)).map Prod.snd
      ∧ ((firstPerKey (guardedOccurrences layouts repeatingGroups)).map Prod.fst).Nodup
      ∧ ∀ k : LookupKey,
          k ∈ (firstPerKey (guardedOccurrences layouts repeatingGroups)).map Prod.fst ↔
            k ∈ (guardedOccurrences layouts repeatingGroups).map Prod.fst := by
  intro layouts rg
  refine ⟨?_, ?_, ?_⟩
  · rw [fetchAppListsSaga_forks_core, orchestratorCore_forks]
  · exact (firstPerKeyAux_nodup (guardedOccurrences layouts rg) []).1
  · intro k
    rw [firstPerKey, firstPerKeyAux_mem]
    simp

/-- C1 witness: two components resolving to the same lookup key on one page
and a distinct one on another page, evaluated concretely. -/
theorem fetchAppListsSaga_forks_once_per_lookup_key_witness :
    (fetchAppListsSaga
        [(("page1"),
          [⟨some ("list1"), some [([Seg.name ("a")], "out")], some false⟩,
           ⟨some ("list1"), some [([Seg.name ("a")], "out")], some false⟩]),
         (("page2"), [⟨some ("list2"), none, none⟩])] []).forks =
        (firstPerKey (guardedOccurrences
          [(("page1"),
            [⟨some ("list1"), some [([Seg.name ("a")], "out")], some false⟩,
             ⟨some ("list1"), some [([Seg.name ("a")], "out")], some false⟩]),
           (("page2"), [⟨some ("list2"), none, none⟩])] [])).map Prod.snd
    ∧ ((firstPerKey (guardedOccurrences
          [(("page1"),
            [⟨some ("list1"), some [([Seg.name ("a")], "out")], some false⟩,
             ⟨some ("list1"), some [([Seg.name ("a")], "out")], some false⟩]),
           (("page2"), [⟨some ("list2"), none, none⟩])] [])).map Prod.fst).Nodup
    ∧ ∀ k : LookupKey,
        k ∈ (firstPerKey (guardedOccurrences
            [(("page1"),
              [⟨some ("list1"), some [([Seg.name ("a")], "out")], some false⟩,
               ⟨some ("list1"), some [([Seg.name ("a")], "out")], some false⟩]),
             (("page2"), [⟨some ("list2"), none, none⟩])] [])).map Prod.fst ↔
          k ∈ (guardedOccurrences
            [(("page1"),
              [⟨some ("list1"), some [([Seg.name ("a")], "out")], some false⟩,
               ⟨some ("list1"), some [([Seg.name ("a")], "out")], some false⟩]),
             (("page2"), [⟨some ("list2"), none, none⟩])] []).map Prod.fst :=
  fetchAppListsSaga_forks_once_per_lookup_key
    [(("page1"),
      [⟨some ("list1"), some [([Seg.name ("a")], "out")], some false⟩,
       ⟨some ("list1"), some [([Seg.name ("a")], "out")], some false⟩]),
     (("page2"), [⟨some ("list2"), none, none⟩])] []

/-- C5: every fetchAppListsSaga pass dispatches exactly one
setAppListsWithIndexIndicators action whose payload contains every
keyWithIndexIndicator returned by getAppListLookupKeys for any component of
any layout page, and this store update appears in the observable trace before
any fetchFulfilled or fetchRejected of a fetch forked in that pass: the trace
splits around the single set action, its prefix holds no set and no terminal
action, and its suffix holds no further set action. -/
theorem fetchAppListsSaga_put_before_completions :
    ∀ (layouts : ILayouts) (repeatingGroups : IRepeatingGroups)
      (completions : List SagaAction),
      (∀ a ∈ completions, isTerminalAction a = true) →
      ∃ pre post,
        orchestrationTrace layouts repeatingGroups completions =
          pre ++ SagaAction.setAppListsWithIndexIndicators
              ((fetchAppListsSaga layouts repeatingGroups).appListsWithIndexIndicators)
            :: post
        ∧ (∀ a ∈ pre, isSetAction a = false ∧ isTerminalAction a = false)
        ∧ (∀ a ∈ post, isSetAction a = false)
        ∧ ∀ pg ∈ layouts, ∀ e ∈ pg.2, ∀ k : IAppListsMetaData,
            (getAppListLookupKeys e.appListId e.mapping e.secure
              repeatingGroups).keyWithIndexIndicator = some k →
            k ∈ (fetchAppListsSaga layouts repeatingGroups).appListsWithIndexIndicators := by
  intro layouts rg completions hc
  refine ⟨((firstPerKey (guardedOccurrences layouts rg)).map Prod.snd).flatMap
      forkSyncActions, completions, ?_, ?_, ?_, ?_⟩
  · rw [orchestrationTrace, fetchAppListsSaga_trace_eq]
    simp
  · intro a ha
    exact forkSync_flatMap_not_set_not_terminal _ a ha
  · intro a ha
    have ht := hc a ha
    cases a <;> simp_all [isTerminalAction, isSetAction]
  · intro pg hpg e he k hk
    rw [fetchAppListsSaga_ind_core, orchestratorCore_ind, allIndicators]
    refine List.mem_flatMap.mpr ⟨pg, hpg, ?_⟩
    refine List.mem_flatMap.mpr ⟨e, he, ?_⟩
    simp [indicatorListOf, hk]

/-- C5 witness: one templated component with a two-row repeating group and a
terminal completion delivered after the pass. -/
theorem fetchAppListsSaga_put_before_completions_witness :
    (∀ a ∈ [SagaAction.fetchRejected (LookupKey.mk none none) ("err")],
        isTerminalAction a = true)
    ∧ ∃ pre post,
        orchestrationTrace
            [(("page1"),
              [⟨some ("list1"),
                some [([Seg.name ("persons"), Seg.indicator, Seg.name ("name")], "label")],
                some false⟩])]
            [([Seg.name ("persons")], 2)]
            [SagaAction.fetchRejected (LookupKey.mk none none) ("err")] =
          pre ++ SagaAction.setAppListsWithIndexIndicators
              ((fetchAppListsSaga
                [(("page1"),
                  [⟨some ("list1"),
                    some [([Seg.name ("persons"), Seg.indicator, Seg.name ("name")], "label")],
                    some false⟩])]
                [([Seg.name ("persons")], 2)]).appListsWithIndexIndicators)
            :: post
        ∧ (∀ a ∈ pre, isSetAction a = false ∧ isTerminalAction a = false)
        ∧ (∀ a ∈ post, isSetAction a = false)
        ∧ ∀ pg ∈ [(("page1"),
              [(⟨some ("list1"),
                some [([Seg.name ("persons"), Seg.indicator, Seg.name ("name")], "label")],
                some false⟩ : ILayoutCompList)])],
            ∀ e ∈ pg.2, ∀ k : IAppListsMetaData,
              (getAppListLookupKeys e.appListId e.mapping e.secure
                [([Seg.name ("persons")], 2)]).keyWithIndexIndicator = some k →
              k ∈ (fetchAppListsSaga
                [(("page1"),
                  [⟨some ("list1"),
                    some [([Seg.name ("persons"), Seg.indicator, Seg.name ("name")], "label")],
                    some false⟩])]
                [([Seg.name ("persons")], 2)]).appListsWithIndexIndicators :=
  ⟨by decide,
   fetchAppListsSaga_put_before_completions
     [(("page1"),
       [⟨some ("list1"),
         some [([Seg.name ("persons"), Seg.indicator, Seg.name ("name")], "label")],
         some false⟩])]
     [([Seg.name ("persons")], 2)]
     [SagaAction.fetchRejected (LookupKey.mk none none) ("err")] (by decide)⟩
